import Mathlib

/-!
Verification of the ring-buffer sensor-acquisition layer of rt-slam
(`include/rtslam/hardwareSensorAbstract.hpp`).

The C++ class `HardwareSensorAbstract<T>` is a fixed-capacity ring buffer of
timestamped readings.  The payload type `T` is generic with two extractors
(`extractRawTimestamp`, `extractRawArrival`); we embed it as a record
`Reading` carrying exactly those two extractable fields.  C++ `double`
timestamps are embedded as `Rat` (all the code does with them is compare and
add, so exact rationals model the intended real-number semantics).  The C++
`int` position fields are always kept in `[0, bufferSize)` by the code, and
we embed them as `Nat`, writing the wrap-arounds exactly as the source does.
Locks, condition variables and thread start/stop flags have no effect on the
sequential state transitions and are not part of the state.
-/

/-- One buffered reading: the generic payload `T`, reduced to its two
extractable components `timestamp` and `arrival`
(cf. `extractRawTimestamp` / `extractRawArrival`). -/
structure Reading where
  timestamp : Rat
  arrival : Rat
  deriving DecidableEq

instance : Inhabited Reading := ⟨⟨0, 0⟩⟩

/-- `struct RawInfo { unsigned id; double timestamp; double arrival; }`. -/
structure RawInfo where
  id : Nat
  timestamp : Rat
  arrival : Rat
  deriving DecidableEq

/-- `struct RawInfos` (the `integrate_all` field is set only by callers
outside this file's scope and is omitted). -/
structure RawInfos where
  available : List RawInfo
  next : RawInfo
  process_time : Rat
  deriving DecidableEq

/-- Error conditions raised by the buffer: `RtslamException::GENERIC_ERROR`
(raised by `getWritePos` on a full buffer), `RtslamException::BUFFER_OVERFLOW`
(raised by `getRaws` when the requested history is gone), and a failed
`JFR_ASSERT` precondition (`t1 <= t2` in `getRaws`). -/
inductive RtslamErr where
  | generic
  | bufferOverflow
  | assertFail
  deriving DecidableEq

/-- The mutable state of `HardwareSensorAbstract<T>`: the position/occupancy
fields, the data/notification counters, the end-of-stream flag and the ring
buffer itself.  (`last_sent_pos` is uninitialized in the C++ constructor; we
initialize it to 0, no claim depends on its initial value.) -/
structure SensorState where
  write_pos : Nat
  read_pos : Nat
  buffer_full : Bool
  read_pos_used : Bool
  data_count : Int
  last_sent_pos : Int
  no_more_data : Bool
  index : Int
  bufferSize : Nat
  buffer : List Reading
  deriving DecidableEq

/-- Timestamp stored in slot `i` (the code reads `buffer(i)` unchecked; all
verified accesses are in range, out-of-range reads default). -/
def tsAt (s : SensorState) (i : Nat) : Rat :=
  (s.buffer.getD i default).timestamp

/-- Arrival time stored in slot `i`. -/
def arrAt (s : SensorState) (i : Nat) : Rat :=
  (s.buffer.getD i default).arrival

/-- The constructed initial state:
`write_pos(0), read_pos(0), buffer_full(false), read_pos_used(false),
index(-1), data_count(0), no_more_data(false), bufferSize, buffer`. -/
def mkSensor (cap : Nat) (buf : List Reading) : SensorState :=
  { write_pos := 0, read_pos := 0, buffer_full := false, read_pos_used := false
    data_count := 0, last_sent_pos := 0, no_more_data := false, index := -1
    bufferSize := cap, buffer := buf }

/-- `isFull`: `read_pos == write_pos && buffer_full`. -/
def isFull (s : SensorState) : Bool :=
  s.read_pos == s.write_pos && s.buffer_full

/-- `getFirstUnreadPos`: `read_pos` itself if it is not being used, else the
next slot (with wrap). -/
def getFirstUnreadPos (s : SensorState) : Nat :=
  if !s.read_pos_used then s.read_pos
  else if s.read_pos != s.bufferSize - 1 then s.read_pos + 1 else 0

/-- `getLastUnreadPos`: the slot just before `write_pos` (with wrap). -/
def getLastUnreadPos (s : SensorState) : Nat :=
  if s.write_pos == 0 then s.bufferSize - 1 else s.write_pos - 1

/-- `isEmpty`: `getFirstUnreadPos() == write_pos && !buffer_full`. -/
def isEmpty (s : SensorState) : Bool :=
  getFirstUnreadPos s == s.write_pos && !s.buffer_full

/-- `getWritePos`: raises `RtslamException::GENERIC_ERROR`
("buffer of hardware is full") when `isFull()`, else returns `write_pos`.
The method mutates nothing. -/
def getWritePos (s : SensorState) : Except RtslamErr Nat :=
  if isFull s then .error .generic else .ok s.write_pos

/-- `incWritePos`: `++write_pos`, wrap to 0 at `bufferSize`, set
`buffer_full` when the new `write_pos` meets `read_pos`, `++data_count`. -/
def incWritePos (s : SensorState) : SensorState :=
  let w := s.write_pos + 1
  let w := if w ≥ s.bufferSize then 0 else w
  { s with write_pos := w
           buffer_full := if w = s.read_pos then true else s.buffer_full
           data_count := s.data_count + 1 }

/-- Store reading `v` at slot `p` (the producer writes into
`buffer[getWritePos()]`). -/
def writeAt (s : SensorState) (p : Nat) (v : Reading) : SensorState :=
  { s with buffer := s.buffer.set p v }

/-- One producer push: `getWritePos()` (rejected when full), write the
reading into that slot, `incWritePos()`. -/
def push (s : SensorState) (v : Reading) : Except RtslamErr SensorState :=
  match getWritePos s with
  | .error e => .error e
  | .ok p => .ok (incWritePos (writeAt s p v))

/-- Fold `push` over a list of readings. -/
def pushList (s : SensorState) : List Reading → Except RtslamErr SensorState
  | [] => .ok s
  | v :: vs => match push s v with
    | .error e => .error e
    | .ok s' => pushList s' vs

/-- `releaseUntil(id)` — release until `id`, excluding `id`:
`read_pos = id; read_pos_used = true;` then clear `buffer_full` if
`getFirstUnreadPos() == write_pos`. -/
def releaseUntil (s : SensorState) (id : Nat) : SensorState :=
  let s' := { s with read_pos := id, read_pos_used := true }
  if getFirstUnreadPos s' = s'.write_pos then { s' with buffer_full := false }
  else s'

/-- `release(id)` — release until `id`, including `id`:
`read_pos = id+1` (wrapping), clear `buffer_full` if
`write_pos == read_pos`, `read_pos_used = false`. -/
def release (s : SensorState) (id : Nat) : SensorState :=
  let rp := if id ≠ s.bufferSize - 1 then id + 1 else 0
  let s' := { s with read_pos := rp }
  let s' := if s'.write_pos = rp then { s' with buffer_full := false } else s'
  { s' with read_pos_used := false }

/-- The dichotomy (`while (i_left != i_right)`) loop of `getRaws`, with its
termination measure `i_right - i_left` made explicit as structural fuel:
every iteration shrinks the gap by at least one, so `fuel = i_right - i_left`
iterations always suffice, and once the gap is closed both the loop guard
and fuel exhaustion return `i_left`.  The guard compares
`extractRawTimestamp(buffer(j % bufferSize)) >= t`. -/
def dichotomyF (s : SensorState) (t : Rat) :
    Nat → Nat → Nat → Nat
  | 0, i_left, _ => i_left
  | fuel + 1, i_left, i_right =>
    if i_left < i_right then
      if t ≤ tsAt s ((i_left + i_right) / 2 % s.bufferSize) then
        dichotomyF s t fuel i_left ((i_left + i_right) / 2)
      else
        dichotomyF s t fuel ((i_left + i_right) / 2 + 1) i_right
    else i_left

/-- The dichotomy loop with the fuel instantiated to its measure. -/
def dichotomy (s : SensorState) (t : Rat) (i_left i_right : Nat) : Nat :=
  dichotomyF s t (i_right - i_left) i_left i_right

/-- `getRaws(t1, t2, release)`: two dichotomies over the logical index space
`[write_pos, write_pos + bufferSize - 1]`, returning the physical slot index
set of the `ublas` indirect view together with the (possibly updated) state.
Error returns leave the state unchanged, exactly as the C++ throws do
(both throws occur before the only mutation `read_pos = i1`).
`(i - 1 + bufferSize) % bufferSize` is written `(i + bufferSize - 1) %
bufferSize`, the same value for `Nat` arithmetic, and the `-0.1` constant is
written `mkRat (-1) 10`. -/
def getRaws (s : SensorState) (t1 t2 : Rat) (rel : Bool) :
    Except RtslamErr (List Nat) × SensorState :=
  if ¬ (t1 ≤ t2) then (.error .assertFail, s)
  else
    let L := dichotomy s t1 s.write_pos (s.write_pos + s.bufferSize - 1)
    let i := L % s.bufferSize
    let i1 := if t1 ≤ mkRat (-1) 10 then i
      else (i + s.bufferSize - 1) % s.bufferSize
    let no_larger := tsAt s i < t1
    let no_smaller := i = s.write_pos
    if no_larger ∧ tsAt s i1 < 0 then (.ok [], s)
    else if no_smaller ∧ 0 < t1 then (.error .bufferOverflow, s)
    else
      let i2 := if no_larger then i1
        else dichotomy s t2 L (s.write_pos + s.bufferSize - 1) % s.bufferSize
      let s' := if rel then { s with read_pos := i1 } else s
      let idx := if i1 ≤ i2 then List.range' i1 (i2 + 1 - i1)
        else List.range' i1 (s.buffer.length - i1) ++ List.range' 0 (i2 + 1)
      (.ok idx, s')

/-- `observeRaw(id, raw)`: `raw = buffer[id]`, no other effect. -/
def observeRaw (s : SensorState) (id : Nat) : Reading × SensorState :=
  (s.buffer.getD id default, s)

/-- `getRaw(id, raw)`: `releaseUntil(id); raw = buffer[id];
last_sent_pos = id; index.applyAndNotify(_1++)`. -/
def getRaw (s : SensorState) (id : Nat) : Reading × SensorState :=
  let s1 := releaseUntil s id
  (s1.buffer.getD id default,
   { s1 with last_sent_pos := Int.ofNat id, index := s1.index + 1 })

/-- `getUnreadRawInfos(infos)`: fill `infos.available` by walking from the
first to the last unread slot (split in two runs at the wrap boundary),
predict `infos.next` from `getLastTimestamp()` (a pure virtual method of the
subclass, passed here as `lastTimestamp`) and the timing parameters
(read from `getTimingInfos`, passed as `data_period` / `arrival_delay`).
Returns `0` when readings are available, else `-2` if `no_more_data`
else `-1`. -/
def getUnreadRawInfos (s : SensorState)
    (lastTimestamp data_period arrival_delay : Rat) : Int × RawInfos :=
  let available : List RawInfo :=
    if isEmpty s then [] else
      let first := getFirstUnreadPos s
      let last := getLastUnreadPos s
      if first ≤ last then
        (List.range' first (last + 1 - first)).map
          (fun p => ⟨p, tsAt s p, arrAt s p⟩)
      else
        (List.range' first (s.bufferSize - first)).map
          (fun p => ⟨p, tsAt s p, arrAt s p⟩)
        ++ (List.range' 0 (last + 1)).map (fun p => ⟨p, tsAt s p, arrAt s p⟩)
  let next_date := lastTimestamp + data_period
  let infos : RawInfos :=
    ⟨available, ⟨0, next_date, next_date + arrival_delay⟩, 0⟩
  if available.length = 0 then
    if s.no_more_data then (-2, infos) else (-1, infos)
  else (0, infos)

/-- `getNextRawInfo(info)`: descriptor of the single oldest unread slot,
`RawInfo(first, timestamp, 0.0)`; same `0 / -1 / -2` convention.  The C++
leaves the out-parameter untouched in the empty cases, modelled by
`Option`. -/
def getNextRawInfo (s : SensorState) : Int × Option RawInfo :=
  if ¬ (isEmpty s) then
    let first := getFirstUnreadPos s
    (0, some ⟨first, tsAt s first, 0⟩)
  else if s.no_more_data then (-2, none) else (-1, none)

/-- Buffer contents after `initData()`-style initialization: every slot
carries the "no data" sentinel timestamp `-99`. -/
def initBuf (cap : Nat) : List Reading :=
  List.replicate cap ⟨-99, 0⟩

/-- The reading held by slot `k` of a buffer pre-loaded with the first `n`
timestamps of `ts` (remaining slots still hold the `-99` sentinel). -/
def preReading (ts arr : Nat → Rat) (n k : Nat) : Reading :=
  if k < n then ⟨ts k, arr k⟩ else ⟨-99, 0⟩

/-- State of a capacity-`cap` buffer after construction, `initData`-style
sentinel fill, and `n` producer pushes of readings with timestamps
`ts 0, …, ts (n-1)` (`n < cap`, so the writes do not wrap):
`write_pos = n`, nothing released. -/
def preState (cap n : Nat) (ts arr : Nat → Rat) : SensorState :=
  { write_pos := n, read_pos := 0, buffer_full := false, read_pos_used := false
    data_count := Int.ofNat n, last_sent_pos := 0, no_more_data := false
    index := -1, bufferSize := cap
    buffer := (List.range cap).map (preReading ts arr n) }

/-- State of a capacity-`cap` buffer after exactly `cap` producer pushes of
timestamps `ts 0, …, ts (cap-1)`: full, `write_pos = read_pos = 0`. -/
def preStateFull (cap : Nat) (ts arr : Nat → Rat) : SensorState :=
  { write_pos := 0, read_pos := 0, buffer_full := true, read_pos_used := false
    data_count := Int.ofNat cap, last_sent_pos := 0, no_more_data := false
    index := -1, bufferSize := cap
    buffer := (List.range cap).map (preReading ts arr cap) }

/-- Number of unreleased readings held by the buffer, read off the occupancy
tracker as the spec defines it: the logical window from `read_pos`
(inclusive) to `write_pos` (exclusive), with the `read_pos == write_pos`
coincidence disambiguated by `buffer_full` — "it is the sole disambiguator
of the coincidence case". -/
def unreleasedCount (s : SensorState) : Nat :=
  if s.read_pos = s.write_pos then (if s.buffer_full then s.bufferSize else 0)
  else (s.write_pos + s.bufferSize - s.read_pos) % s.bufferSize

/-- States reachable from the constructed initial state by producer pushes
(`getWritePos`, write, `incWritePos`) and consumer releases (`release`,
`releaseUntil`, `getRaws` with release). -/
inductive Reachable : SensorState → Prop where
  | init (cap : Nat) (buf : List Reading) (hcap : 0 < cap) :
      Reachable (mkSensor cap buf)
  | push (s : SensorState) (v : Reading) (p : Nat) :
      Reachable s → getWritePos s = .ok p →
      Reachable (incWritePos (writeAt s p v))
  | rel (s : SensorState) (id : Nat) :
      Reachable s → id < s.bufferSize → Reachable (release s id)
  | relUntil (s : SensorState) (id : Nat) :
      Reachable s → id < s.bufferSize → Reachable (releaseUntil s id)
  | raws (s : SensorState) (t1 t2 : Rat) (idx : List Nat) (s' : SensorState) :
      Reachable s → getRaws s t1 t2 true = (.ok idx, s') → Reachable s'

/-- The full concrete scenario state: capacity 4, pushed timestamps
`1, 2, 3, 4` (each with its arrival time equal to its timestamp). -/
def scenario4 : SensorState :=
  { write_pos := 0, read_pos := 0, buffer_full := true, read_pos_used := false
    data_count := 4, last_sent_pos := 0, no_more_data := false, index := -1
    bufferSize := 4
    buffer := [⟨1, 1⟩, ⟨2, 2⟩, ⟨3, 3⟩, ⟨4, 4⟩] }

/-- A wrapped concrete state: capacity 4, pushed `1,2,3,4`, `release(1)`,
pushed `5,6`; the retained window `3,4,5,6` wraps past physical index 0. -/
def scenario6 : SensorState :=
  { write_pos := 2, read_pos := 2, buffer_full := true, read_pos_used := false
    data_count := 6, last_sent_pos := 0, no_more_data := false, index := -1
    bufferSize := 4
    buffer := [⟨5, 5⟩, ⟨6, 6⟩, ⟨3, 3⟩, ⟨4, 4⟩] }

/-- A full capacity-2 state: pushed timestamps `1, 2`. -/
def full2 : SensorState :=
  { write_pos := 0, read_pos := 0, buffer_full := true, read_pos_used := false
    data_count := 2, last_sent_pos := 0, no_more_data := false, index := -1
    bufferSize := 2
    buffer := [⟨1, 1⟩, ⟨2, 2⟩] }

/-- `enum Quantity` of `HardwareSensorProprioAbstract` (without the
`qNQuantity` cardinality marker). -/
inductive Quantity where
  | qPos | qOriQuat | qOriEuler | qVel | qAbsVel | qAngVel | qAbsAngVel
  | qAcc | qAbsAcc | qBundleobs | qMag
  deriving DecidableEq

/-- `enum CovType { ctNone, ctVar, ctFull }`. -/
inductive CovType where
  | ctNone | ctVar | ctFull
  deriving DecidableEq

/-- Modelled from the spec: the constant table
`HardwareSensorProprioAbstract::QuantityDataSizes` is declared in the header
but defined in a translation unit that is not part of this repository
snapshot; the per-quantity measurement widths are taken from the header's
own doc comments — position `(x y z)` = 3, quaternion orientation
`(qx qy qz qw)` = 4, Euler orientation 3, each velocity/acceleration triple
3, bundle observation `(x y z ux uy uz)` = 6, magnetic field 3. -/
def QuantityDataSizes : Quantity → Nat
  | .qPos => 3
  | .qOriQuat => 4
  | .qOriEuler => 3
  | .qVel => 3
  | .qAbsVel => 3
  | .qAngVel => 3
  | .qAbsAngVel => 3
  | .qAcc => 3
  | .qAbsAcc => 3
  | .qBundleobs => 6
  | .qMag => 3

/-- Registry state of `HardwareSensorProprioAbstract`: per-quantity offset
(`-1` when absent), accumulated data and observation widths, covariance
mode. -/
structure ProprioState where
  quantities : Quantity → Int
  data_size : Nat
  obs_size : Nat
  cov_type : CovType

/-- `clearQuantities()`: every offset `-1`, both accumulated sizes `0`. -/
def clearQuantities (st : ProprioState) : ProprioState :=
  { st with quantities := fun _ => -1, data_size := 0, obs_size := 0 }

/-- The proprioceptive registry as constructed
(constructor body runs `clearQuantities()`). -/
def mkProprio (covType : CovType) : ProprioState :=
  clearQuantities { quantities := fun _ => -1, data_size := 0, obs_size := 0
                    cov_type := covType }

/-- `addQuantity(quantity)`:
`quantities[quantity] = data_size+1; data_size += QuantityDataSizes[quantity];
obs_size += QuantityObsSizes[quantity]`.  The companion table
`QuantityObsSizes` is likewise defined outside this repository snapshot and
its values are not documented, so it is taken as an arbitrary parameter
`obsSizes` (no verified claim depends on it). -/
def addQuantity (obsSizes : Quantity → Nat) (st : ProprioState)
    (q : Quantity) : ProprioState :=
  { st with quantities := fun q' => if q' = q then Int.ofNat st.data_size + 1
                                    else st.quantities q'
            data_size := st.data_size + QuantityDataSizes q
            obs_size := st.obs_size + obsSizes q }

/-- `dataSize()`. -/
def dataSize (st : ProprioState) : Nat := st.data_size

/-- `readingSize()`: `1 + data_size` for `ctNone`, `1 + data_size*2` for
`ctVar`, `1 + data_size*(data_size+3)/2` for `ctFull`. -/
def readingSize (st : ProprioState) : Nat :=
  match st.cov_type with
  | .ctNone => 1 + st.data_size
  | .ctVar => 1 + st.data_size * 2
  | .ctFull => 1 + st.data_size * (st.data_size + 3) / 2

/-- Fold `addQuantity` over a registration list. -/
def regList (obsSizes : Quantity → Nat) (st : ProprioState)
    (qs : List Quantity) : ProprioState :=
  qs.foldl (addQuantity obsSizes) st

/-- Decidable equality of `Except` results (for evaluating the model on
concrete inputs). -/
instance {ε α : Type} [DecidableEq ε] [DecidableEq α] :
    DecidableEq (Except ε α) := fun x y =>
  match x, y with
  | .error a, .error b =>
    if h : a = b then .isTrue (by rw [h])
    else .isFalse (by intro hc; cases hc; exact h rfl)
  | .error _, .ok _ => .isFalse (by intro hc; cases hc)
  | .ok _, .error _ => .isFalse (by intro hc; cases hc)
  | .ok a, .ok b =>
    if h : a = b then .isTrue (by rw [h])
    else .isFalse (by intro hc; cases hc; exact h rfl)

/-- Concrete strictly increasing timestamp sequence `1, 2, 3, …` used to
instantiate the general theorems. -/
def tsW : Nat → Rat := fun k => ((k + 1 : Nat) : Rat)

/-- Concrete arrival sequence (all zero) used to instantiate the general
theorems. -/
def arrW : Nat → Rat := fun _ => 0

/-! ## Helper lemmas -/

/-- The dichotomy loop is a correct binary search: if the predicate
`t ≤ timestamp` is false strictly below logical position `m` and true from
`m` on (within `[l, r]`), the loop returns `m`, for any sufficient fuel. -/
theorem dichotomyF_spec (s : SensorState) (t : Rat) :
    ∀ (fuel l r m : Nat), r - l ≤ fuel → l ≤ m → m ≤ r →
    (∀ k, l ≤ k → k < m → tsAt s (k % s.bufferSize) < t) →
    (∀ k, m ≤ k → k ≤ r → t ≤ tsAt s (k % s.bufferSize)) →
    dichotomyF s t fuel l r = m := by
  intro fuel
  induction fuel with
  | zero =>
    intro l r m h1 h2 h3 _ _
    have : m = l := by omega
    simp [dichotomyF, this]
  | succ fuel ih =>
    intro l r m h1 h2 h3 hlow hhigh
    rw [dichotomyF]
    by_cases hlr : l < r
    · rw [if_pos hlr]
      by_cases hts : t ≤ tsAt s ((l + r) / 2 % s.bufferSize)
      · rw [if_pos hts]
        have hmj : m ≤ (l + r) / 2 := by
          by_contra hc
          push_neg at hc
          exact absurd hts (not_le.mpr (hlow _ (by omega) (by omega)))
        exact ih l ((l + r) / 2) m (by omega) h2 hmj hlow
          (fun k hk1 hk2 => hhigh k hk1 (by omega))
      · rw [if_neg hts]
        have hjm : (l + r) / 2 + 1 ≤ m := by
          by_contra hc
          push_neg at hc
          exact hts (hhigh _ (by omega) (by omega))
        exact ih ((l + r) / 2 + 1) r m (by omega) hjm h3
          (fun k hk1 hk2 => hlow k (by omega) hk2) hhigh
    · rw [if_neg hlr]
      omega

/-- `dichotomy` satisfies the binary-search specification. -/
theorem dichotomy_spec (s : SensorState) (t : Rat) (l r m : Nat)
    (h2 : l ≤ m) (h3 : m ≤ r)
    (hlow : ∀ k, l ≤ k → k < m → tsAt s (k % s.bufferSize) < t)
    (hhigh : ∀ k, m ≤ k → k ≤ r → t ≤ tsAt s (k % s.bufferSize)) :
    dichotomy s t l r = m :=
  dichotomyF_spec s t (r - l) l r m le_rfl h2 h3 hlow hhigh

/-- Timestamps of the pre-loaded buffer: slot `k < n` holds `ts k`, slots
`n ≤ k < cap` hold the sentinel `-99`. -/
theorem tsAt_preState (cap n : Nat) (ts arr : Nat → Rat) (k : Nat)
    (hk : k < cap) :
    tsAt (preState cap n ts arr) k = if k < n then ts k else -99 := by
  unfold tsAt preState preReading
  simp only [List.getD_eq_getElem?_getD, List.getElem?_map, List.getElem?_range,
    hk, if_pos, Option.map_some', Option.getD_some]
  split <;> rfl

/-- Timestamps of the fully pre-loaded buffer: slot `k < cap` holds `ts k`. -/
theorem tsAt_preStateFull (cap : Nat) (ts arr : Nat → Rat) (k : Nat)
    (hk : k < cap) :
    tsAt (preStateFull cap ts arr) k = ts k := by
  unfold tsAt preStateFull preReading
  simp only [List.getD_eq_getElem?_getD, List.getElem?_map, List.getElem?_range,
    hk, if_pos, Option.map_some', Option.getD_some]

/-- Generic successful evaluation of `getRaws`: once the two dichotomies and
the modular index arithmetic are resolved (hypotheses), the call returns the
indirect-view index set and, when releasing, advances `read_pos` to the
interpolation predecessor `i1`. -/
theorem getRaws_eval_ok (s : SensorState) (t1 t2 : Rat) (b : Bool)
    (i1 i2 : Nat) (idx : List Nat)
    (h12 : t1 ≤ t2)
    (hi1 : (if t1 ≤ mkRat (-1) 10 then
        dichotomy s t1 s.write_pos (s.write_pos + s.bufferSize - 1) %
          s.bufferSize
      else (dichotomy s t1 s.write_pos (s.write_pos + s.bufferSize - 1) %
          s.bufferSize + s.bufferSize - 1) % s.bufferSize) = i1)
    (hnl : t1 ≤ tsAt s
      (dichotomy s t1 s.write_pos (s.write_pos + s.bufferSize - 1) %
        s.bufferSize))
    (hns : dichotomy s t1 s.write_pos (s.write_pos + s.bufferSize - 1) %
        s.bufferSize ≠ s.write_pos)
    (hi2 : dichotomy s t2
        (dichotomy s t1 s.write_pos (s.write_pos + s.bufferSize - 1))
        (s.write_pos + s.bufferSize - 1) % s.bufferSize = i2)
    (hidx : (if i1 ≤ i2 then List.range' i1 (i2 + 1 - i1)
      else List.range' i1 (s.buffer.length - i1) ++ List.range' 0 (i2 + 1))
      = idx) :
    getRaws s t1 t2 b
      = (.ok idx, if b then { s with read_pos := i1 } else s) := by
  simp only [getRaws]
  rw [if_neg (not_not_intro h12)]
  rw [if_neg (fun h => absurd h.1 (not_lt.mpr hnl))]
  rw [if_neg (fun h => absurd h.1 hns)]
  rw [if_neg (not_lt.mpr hnl)]
  rw [hi1, hi2, hidx]

/-- Non-strict monotonicity from strict monotonicity of the timestamps. -/
theorem ts_mono_le (n : Nat) (ts : Nat → Rat)
    (hmono : ∀ a c : Nat, a < c → c < n → ts a < ts c)
    (a c : Nat) (hac : a ≤ c) (hc : c < n) : ts a ≤ ts c := by
  rcases Nat.lt_or_ge a c with h | h
  · exact le_of_lt (hmono a c h hc)
  · have : a = c := by omega
    simp [this]

/-- Positivity of all timestamps from positivity of the first. -/
theorem ts_pos (n : Nat) (ts : Nat → Rat)
    (hmono : ∀ a c : Nat, a < c → c < n → ts a < ts c)
    (hpos : 0 < ts 0) : ∀ k, k < n → 0 < ts k := by
  intro k hk
  rcases Nat.eq_zero_or_pos k with h | h
  · simpa [h] using hpos
  · exact lt_trans hpos (hmono 0 k h hk)

/-- `k % cap = k - cap` on the second modular period. -/
theorem mod_sub_cap (cap k : Nat) (h1 : cap ≤ k) (h2 : k < 2 * cap) :
    k % cap = k - cap := by
  rw [Nat.mod_eq_sub_mod h1, Nat.mod_eq_of_lt (by omega)]

/-- The from-start sentinel constant `-0.1` (`mkRat (-1) 10`) is
negative. -/
theorem negTenth_lt : (mkRat (-1) 10 : Rat) < 0 := by decide

/-- First dichotomy of `getRaws` on the pre-loaded buffer: searching over
the logical space `[n, n + cap - 1]` (sentinel slots first, then the `n`
stored timestamps) locates logical position `cap + m` whenever the
threshold separates `ts` at `m`. -/
theorem dichotomy_preState_at (cap n : Nat) (ts arr : Nat → Rat) (m : Nat)
    (t : Rat) (hn : 0 < n) (hcap : n < cap) (hm : m < n)
    (hsent : -99 < t)
    (hlow : ∀ k, k < m → ts k < t)
    (hhigh : ∀ k, m ≤ k → k < n → t ≤ ts k) :
    dichotomy (preState cap n ts arr) t n (n + cap - 1) = cap + m := by
  have hbs : (preState cap n ts arr).bufferSize = cap := rfl
  apply dichotomy_spec
  · omega
  · omega
  · intro k hk1 hk2
    rw [hbs]
    by_cases hkc : k < cap
    · rw [Nat.mod_eq_of_lt hkc, tsAt_preState cap n ts arr k hkc,
        if_neg (by omega)]
      exact hsent
    · rw [mod_sub_cap cap k (by omega) (by omega),
        tsAt_preState cap n ts arr _ (by omega), if_pos (by omega)]
      exact hlow (k - cap) (by omega)
  · intro k hk1 hk2
    rw [hbs, mod_sub_cap cap k (by omega) (by omega),
      tsAt_preState cap n ts arr _ (by omega), if_pos (by omega)]
    exact hhigh (k - cap) (by omega) (by omega)

/-- Second dichotomy of `getRaws` on the pre-loaded buffer, starting from
the first search's result `cap + i`. -/
theorem dichotomy2_preState_at (cap n : Nat) (ts arr : Nat → Rat)
    (i m : Nat) (t : Rat) (hn : 0 < n) (hcap : n < cap)
    (hi : i ≤ m) (hm : m < n)
    (hlow : ∀ k, i ≤ k → k < m → ts k < t)
    (hhigh : ∀ k, m ≤ k → k < n → t ≤ ts k) :
    dichotomy (preState cap n ts arr) t (cap + i) (n + cap - 1) = cap + m := by
  have hbs : (preState cap n ts arr).bufferSize = cap := rfl
  apply dichotomy_spec
  · omega
  · omega
  · intro k hk1 hk2
    rw [hbs, mod_sub_cap cap k (by omega) (by omega),
      tsAt_preState cap n ts arr _ (by omega), if_pos (by omega)]
    exact hlow (k - cap) (by omega) (by omega)
  · intro k hk1 hk2
    rw [hbs, mod_sub_cap cap k (by omega) (by omega),
      tsAt_preState cap n ts arr _ (by omega), if_pos (by omega)]
    exact hhigh (k - cap) (by omega) (by omega)

/-- `getRaws(ts i, ts j)` on the pre-loaded buffer, `1 ≤ i ≤ j < n`:
returns exactly slots `i-1 .. j` in chronological order, and with release
advances `read_pos` to the interpolation predecessor `i-1`. -/
theorem getRaws_preState_main (cap n : Nat) (ts arr : Nat → Rat)
    (i j : Nat) (b : Bool)
    (hn : 0 < n) (hcap : n < cap)
    (hmono : ∀ a c : Nat, a < c → c < n → ts a < ts c)
    (hpos : 0 < ts 0)
    (hi : 1 ≤ i) (hij : i ≤ j) (hj : j < n) :
    getRaws (preState cap n ts arr) (ts i) (ts j) b
      = (.ok (List.range' (i - 1) (j + 2 - i)),
         if b then { preState cap n ts arr with read_pos := i - 1 }
         else preState cap n ts arr) := by
  have hposk : ∀ k, k < n → 0 < ts k := ts_pos n ts hmono hpos
  have hwp : (preState cap n ts arr).write_pos = n := rfl
  have hbs : (preState cap n ts arr).bufferSize = cap := rfl
  have hd1 : dichotomy (preState cap n ts arr) (ts i)
      (preState cap n ts arr).write_pos
      ((preState cap n ts arr).write_pos +
        (preState cap n ts arr).bufferSize - 1) = cap + i := by
    rw [hwp, hbs]
    exact dichotomy_preState_at cap n ts arr i (ts i) hn hcap (by omega)
      (by have := hposk i (by omega); linarith)
      (fun k hk => hmono k i hk (by omega))
      (fun k hk1 hk2 => ts_mono_le n ts hmono i k hk1 hk2)
  have hmodi : (cap + i) % cap = i := by
    rw [Nat.add_mod_left, Nat.mod_eq_of_lt (by omega)]
  have hnotsent : ¬ (ts i ≤ mkRat (-1) 10) := by
    have := hposk i (by omega)
    have hneg := negTenth_lt
    intro hcon
    linarith
  refine getRaws_eval_ok (preState cap n ts arr) (ts i) (ts j) b
    (i - 1) j (List.range' (i - 1) (j + 2 - i))
    (ts_mono_le n ts hmono i j hij hj) ?_ ?_ ?_ ?_ ?_
  · rw [hd1, hbs, hmodi, if_neg hnotsent]
    have harith : i + cap - 1 = cap + (i - 1) := by omega
    rw [harith, Nat.add_mod_left, Nat.mod_eq_of_lt (by omega)]
  · rw [hd1, hbs, hmodi, tsAt_preState cap n ts arr i (by omega),
      if_pos (by omega)]
  · rw [hd1, hbs, hmodi, hwp]
    omega
  · rw [hd1, hwp, hbs]
    rw [dichotomy2_preState_at cap n ts arr i j (ts j) hn hcap hij hj
      (fun k hk1 hk2 => hmono k j hk2 hj)
      (fun k hk1 hk2 => ts_mono_le n ts hmono j k hk1 hk2)]
    rw [Nat.add_mod_left, Nat.mod_eq_of_lt (by omega)]
  · rw [if_pos (by omega : i - 1 ≤ j)]
    congr 1
    omega

/-- `getRaws(t1, ts j)` with the explicit from-start value
`-99 < t1 ≤ -0.1` on the pre-loaded buffer: returns exactly slots `0 .. j`
(no sentinel predecessor), and with release leaves `read_pos` at slot 0. -/
theorem getRaws_preState_sentinel (cap n : Nat) (ts arr : Nat → Rat)
    (j : Nat) (b : Bool) (t1 : Rat)
    (hn : 0 < n) (hcap : n < cap)
    (hmono : ∀ a c : Nat, a < c → c < n → ts a < ts c)
    (hpos : 0 < ts 0)
    (ht1a : -99 < t1) (ht1b : t1 ≤ mkRat (-1) 10) (hj : j < n) :
    getRaws (preState cap n ts arr) t1 (ts j) b
      = (.ok (List.range' 0 (j + 1)),
         if b then { preState cap n ts arr with read_pos := 0 }
         else preState cap n ts arr) := by
  have hposk : ∀ k, k < n → 0 < ts k := ts_pos n ts hmono hpos
  have hwp : (preState cap n ts arr).write_pos = n := rfl
  have hbs : (preState cap n ts arr).bufferSize = cap := rfl
  have hd1 : dichotomy (preState cap n ts arr) t1
      (preState cap n ts arr).write_pos
      ((preState cap n ts arr).write_pos +
        (preState cap n ts arr).bufferSize - 1) = cap + 0 := by
    rw [hwp, hbs]
    exact dichotomy_preState_at cap n ts arr 0 t1 hn hcap (by omega) ht1a
      (fun k hk => absurd hk (Nat.not_lt_zero k))
      (fun k _ hk2 => by
        have := hposk k hk2
        have hneg := negTenth_lt
        linarith)
  have hmod0 : (cap + 0) % cap = 0 := by
    rw [Nat.add_mod_left, Nat.zero_mod]
  refine getRaws_eval_ok (preState cap n ts arr) t1 (ts j) b
    0 j (List.range' 0 (j + 1))
    (by have := hposk j hj; have hneg := negTenth_lt; linarith) ?_ ?_ ?_ ?_ ?_
  · rw [hd1, hbs, hmod0, if_pos ht1b]
  · rw [hd1, hbs, hmod0, tsAt_preState cap n ts arr 0 (by omega),
      if_pos (by omega)]
    have := hposk 0 (by omega)
    have hneg := negTenth_lt
    linarith
  · rw [hd1, hbs, hmod0, hwp]
    omega
  · rw [hd1, hwp, hbs]
    rw [dichotomy2_preState_at cap n ts arr 0 j (ts j) hn hcap (by omega) hj
      (fun k hk1 hk2 => hmono k j hk2 hj)
      (fun k hk1 hk2 => ts_mono_le n ts hmono j k hk1 hk2)]
    rw [Nat.add_mod_left, Nat.mod_eq_of_lt (by omega)]
  · rw [if_pos (by omega : 0 ≤ j)]
    congr 1

/-- `getRaws` on a fully loaded buffer with `0 < t1` not above the oldest
retained timestamp `ts 0`: `BUFFER_OVERFLOW`, state unchanged. -/
theorem getRaws_preStateFull_overflow (cap : Nat) (ts arr : Nat → Rat)
    (t1 t2 : Rat) (b : Bool)
    (hcap : 0 < cap)
    (hmono : ∀ a c : Nat, a < c → c < cap → ts a < ts c)
    (ht1 : 0 < t1) (hle : t1 ≤ ts 0) (h12 : t1 ≤ t2) :
    getRaws (preStateFull cap ts arr) t1 t2 b
      = (.error .bufferOverflow, preStateFull cap ts arr) := by
  have hwp : (preStateFull cap ts arr).write_pos = 0 := rfl
  have hbs : (preStateFull cap ts arr).bufferSize = cap := rfl
  have hd1 : dichotomy (preStateFull cap ts arr) t1
      (preStateFull cap ts arr).write_pos
      ((preStateFull cap ts arr).write_pos +
        (preStateFull cap ts arr).bufferSize - 1) = 0 := by
    rw [hwp, hbs]
    apply dichotomy_spec
    · omega
    · omega
    · intro k hk1 hk2
      omega
    · intro k hk1 hk2
      rw [hbs, Nat.mod_eq_of_lt (by omega),
        tsAt_preStateFull cap ts arr k (by omega)]
      exact le_trans hle (ts_mono_le cap ts hmono 0 k (by omega) (by omega))
  simp only [getRaws]
  rw [if_neg (not_not_intro h12)]
  rw [hd1, hbs, Nat.zero_mod]
  rw [tsAt_preStateFull cap ts arr 0 hcap]
  rw [if_neg (fun h => absurd h.1 (not_lt.mpr hle))]
  rw [if_pos ⟨hwp.symm, ht1⟩]

/-- The first unread position is a valid slot index. -/
theorem getFirstUnreadPos_lt (s : SensorState) (hcap : 0 < s.bufferSize)
    (hrp : s.read_pos < s.bufferSize) :
    getFirstUnreadPos s < s.bufferSize := by
  simp only [getFirstUnreadPos]
  split_ifs with h1 h2
  · exact hrp
  · rw [bne_iff_ne] at h2
    omega
  · omega

/-- `getRaws` either leaves the state unchanged or only moves `read_pos`
to a valid slot (the release to the interpolation predecessor `i1`). -/
theorem getRaws_snd (s : SensorState) (t1 t2 : Rat) (rel : Bool)
    (hcap : 0 < s.bufferSize) :
    (getRaws s t1 t2 rel).2 = s ∨
      ∃ v, v < s.bufferSize ∧
        (getRaws s t1 t2 rel).2 = { s with read_pos := v } := by
  simp only [getRaws]
  split_ifs with h1 h2 h3 h4 h5 <;>
    first
      | exact Or.inl rfl
      | exact Or.inr ⟨_, Nat.mod_lt _ hcap, rfl⟩

/-- Every reachable state has a positive capacity and both positions in
range: `0 ≤ write_pos, read_pos < bufferSize`. -/
theorem reachable_bounds (s : SensorState) (h : Reachable s) :
    0 < s.bufferSize ∧ s.write_pos < s.bufferSize ∧
      s.read_pos < s.bufferSize := by
  induction h with
  | init cap buf hcap => exact ⟨hcap, hcap, hcap⟩
  | push s v p _ hw ih =>
    simp only [incWritePos, writeAt]
    refine ⟨ih.1, ?_, ih.2.2⟩
    dsimp only
    split_ifs with h1
    · exact ih.1
    · omega
  | rel s id _ hid ih =>
    simp only [release]
    split_ifs with h1 h2 <;> exact ⟨ih.1, ih.2.1, by dsimp only; omega⟩
  | relUntil s id _ hid ih =>
    simp only [releaseUntil]
    split_ifs with h1 <;> exact ⟨ih.1, ih.2.1, hid⟩
  | raws s t1 t2 idx s' _ hr ih =>
    rcases getRaws_snd s t1 t2 true ih.1 with hcase | ⟨v, hv, hcase⟩
    · rw [hr] at hcase
      simp only at hcase
      rw [hcase]
      exact ih
    · rw [hr] at hcase
      simp only at hcase
      rw [hcase]
      exact ⟨ih.1, ih.2.1, hv⟩

/-! ## Claim theorems -/

/-- C1: for a buffer pre-loaded with strictly increasing (positive)
timestamps `ts 0 < … < ts (n-1)`, `n < cap`, `getRaws (ts i) (ts j)` with
`1 ≤ i ≤ j < n` returns exactly slots `i-1 .. j` inclusive in chronological
order, and `getRaws t1 (ts j)` with the explicit from-start sentinel
`-99 < t1 ≤ -0.1` returns exactly slots `0 .. j`; concretely, with capacity
4 and pushed timestamps `1,2,3,4`, `getRaws(2.5, 10, false)` returns exactly
the slots holding timestamps `2,3,4` (index 1,2,3), and on a physically
wrapped window (pushed `1..4`, released slot 1, pushed `5,6`) the returned
slot range `3,0,1` (timestamps `4,5,6`) wraps past index 0. -/
theorem C1_range_correctness (cap n : Nat) (ts arr : Nat → Rat)
    (i j : Nat) (b : Bool)
    (hn : 0 < n) (hcap : n < cap)
    (hmono : ∀ a c : Nat, a < c → c < n → ts a < ts c)
    (hpos : 0 < ts 0) (hij : i ≤ j) (hj : j < n) :
    (1 ≤ i →
      getRaws (preState cap n ts arr) (ts i) (ts j) b
        = (.ok (List.range' (i - 1) (j + 2 - i)),
           if b then { preState cap n ts arr with read_pos := i - 1 }
           else preState cap n ts arr))
    ∧ (∀ t1 : Rat, -99 < t1 → t1 ≤ mkRat (-1) 10 →
      getRaws (preState cap n ts arr) t1 (ts j) b
        = (.ok (List.range' 0 (j + 1)),
           if b then { preState cap n ts arr with read_pos := 0 }
           else preState cap n ts arr))
    ∧ pushList (mkSensor 4 (initBuf 4)) [⟨1, 1⟩, ⟨2, 2⟩, ⟨3, 3⟩, ⟨4, 4⟩]
        = .ok scenario4
    ∧ (getRaws scenario4 (mkRat 5 2) 10 false).1 = .ok [1, 2, 3]
    ∧ [1, 2, 3].map (tsAt scenario4) = [2, 3, 4]
    ∧ pushList (release scenario4 1) [⟨5, 5⟩, ⟨6, 6⟩] = .ok scenario6
    ∧ (getRaws scenario6 (mkRat 9 2) 10 false).1 = .ok [3, 0, 1]
    ∧ [3, 0, 1].map (tsAt scenario6) = [4, 5, 6] :=
  ⟨fun hi =>
      getRaws_preState_main cap n ts arr i j b hn hcap hmono hpos hi hij hj,
   fun t1 h1 h2 =>
      getRaws_preState_sentinel cap n ts arr j b t1 hn hcap hmono hpos h1 h2 hj,
   by decide, by decide, by decide, by decide, by decide, by decide⟩

/-- Witness for C1 at `cap = 4`, `n = 3`, `ts k = k + 1`, `i = 1`,
`j = 2`. -/
theorem C1_range_correctness_witness :
    getRaws (preState 4 3 tsW arrW) (tsW 1) (tsW 2) false
      = (.ok (List.range' 0 3), preState 4 3 tsW arrW) :=
  (C1_range_correctness 4 3 tsW arrW 1 2 false
    (by decide) (by decide)
    (fun a c h1 _ => by
      simp only [tsW]
      exact_mod_cast Nat.succ_lt_succ h1)
    (by norm_num [tsW]) (by decide) (by decide)).1 (by decide)

/-- C2 counterexample: on the full capacity-2 buffer (pushed timestamps
`1, 2`), `getWritePos` raises `RtslamException::GENERIC_ERROR`
("buffer of hardware is full"), not the `BUFFER_OVERFLOW` condition the
claim names. -/
theorem C2_overflow_counterexample :
    pushList (mkSensor 2 (initBuf 2)) [⟨1, 1⟩, ⟨2, 2⟩] = .ok full2
    ∧ isFull full2 = true
    ∧ getWritePos full2 = .error .generic
    ∧ RtslamErr.generic ≠ RtslamErr.bufferOverflow := by decide

/-- C2 (amended): `getWritePos` on a buffer with `isFull()` raises the
GENERIC error condition (the method mutates nothing, reflected in its
read-only type); `getRaws(t1, t2)` with `0 < t1` not newer than the oldest
retained reading's timestamp raises `BUFFER_OVERFLOW` and leaves the state
unchanged. -/
theorem C2_overflow_amended (s : SensorState) (hfull : isFull s = true)
    (cap : Nat) (ts arr : Nat → Rat) (t1 t2 : Rat) (b : Bool)
    (hcap : 0 < cap)
    (hmono : ∀ a c : Nat, a < c → c < cap → ts a < ts c)
    (ht1 : 0 < t1) (hle : t1 ≤ ts 0) (h12 : t1 ≤ t2) :
    getWritePos s = .error .generic
    ∧ getRaws (preStateFull cap ts arr) t1 t2 b
        = (.error .bufferOverflow, preStateFull cap ts arr) :=
  ⟨by unfold getWritePos; rw [if_pos hfull],
   getRaws_preStateFull_overflow cap ts arr t1 t2 b hcap hmono ht1 hle h12⟩

/-- Witness for the amended C2 at the full capacity-2 buffer and the fully
loaded `cap = 2`, `ts k = k + 1`, `t1 = 1`, `t2 = 10` query. -/
theorem C2_overflow_amended_witness :
    getWritePos full2 = .error .generic
    ∧ getRaws (preStateFull 2 tsW arrW) 1 10 false
        = (.error .bufferOverflow, preStateFull 2 tsW arrW) :=
  C2_overflow_amended full2 (by decide) 2 tsW arrW 1 10 false
    (by decide)
    (fun a c h1 _ => by
      simp only [tsW]
      exact_mod_cast Nat.succ_lt_succ h1)
    (by norm_num) (by norm_num [tsW]) (by norm_num)

/-- C3: in every state reachable by producer pushes and consumer releases,
`isFull()` and `isEmpty()` are never simultaneously true, and `isFull()`
holds exactly when the number of unreleased readings equals
`bufferSize`. -/
theorem C3_occupancy_invariant (s : SensorState) (h : Reachable s) :
    ¬ (isFull s = true ∧ isEmpty s = true)
    ∧ (isFull s = true ↔ unreleasedCount s = s.bufferSize) := by
  obtain ⟨hcap, hwp, hrp⟩ := reachable_bounds s h
  constructor
  · rintro ⟨hf, he⟩
    simp only [isFull, Bool.and_eq_true, beq_iff_eq] at hf
    simp only [isEmpty, Bool.and_eq_true, Bool.not_eq_true'] at he
    rw [hf.2] at he
    cases he.2
  · constructor
    · intro hf
      simp only [isFull, Bool.and_eq_true, beq_iff_eq] at hf
      unfold unreleasedCount
      rw [if_pos hf.1, if_pos hf.2]
    · intro hc
      unfold unreleasedCount at hc
      by_cases heq : s.read_pos = s.write_pos
      · rw [if_pos heq] at hc
        by_cases hbf : s.buffer_full
        · simp [isFull, heq, hbf]
        · rw [if_neg hbf] at hc
          omega
      · rw [if_neg heq] at hc
        have hlt : (s.write_pos + s.bufferSize - s.read_pos) % s.bufferSize
            < s.bufferSize := Nat.mod_lt _ hcap
        omega

/-- Witness for C3 at the freshly constructed capacity-2 buffer. -/
theorem C3_occupancy_invariant_witness :
    ¬ (isFull (mkSensor 2 (initBuf 2)) = true
        ∧ isEmpty (mkSensor 2 (initBuf 2)) = true)
    ∧ (isFull (mkSensor 2 (initBuf 2)) = true
        ↔ unreleasedCount (mkSensor 2 (initBuf 2))
            = (mkSensor 2 (initBuf 2)).bufferSize) :=
  C3_occupancy_invariant _ (Reachable.init 2 (initBuf 2) (by decide))

/-- C4 counterexample: `getRaw(1)` on the full capacity-2 buffer does NOT
release slot 1: the post-state keeps `read_pos = 1` marked in use, one
reading stays unreleased, and after refilling the freed slot the next
producer push is rejected — slot 1 never becomes available for
overwrite, contradicting the claim's "releases every slot up to and
including id". -/
theorem C4_getRaw_counterexample :
    (getRaw full2 1).2.read_pos = 1
    ∧ (getRaw full2 1).2.read_pos_used = true
    ∧ unreleasedCount (getRaw full2 1).2 = 1
    ∧ (push (getRaw full2 1).2 ⟨3, 3⟩).map getWritePos
        = .ok (.error .generic) := by decide

/-- C4 (amended): `getRaw(id, out)` copies slot `id` into `out`, releases
every slot strictly before `id` (it calls `releaseUntil`, which excludes
`id`: `read_pos = id` with `read_pos_used = true`, so slot `id` itself
stays protected from overwrite), and increments the monotonic consumed-count
notification index by exactly one; `write_pos` and the buffer contents are
unchanged. -/
theorem C4_getRaw_amended (s : SensorState) (id : Nat)
    (hid : id < s.bufferSize) :
    (getRaw s id).1 = s.buffer.getD id default
    ∧ (getRaw s id).2.read_pos = id
    ∧ (getRaw s id).2.read_pos_used = true
    ∧ (getRaw s id).2.last_sent_pos = Int.ofNat id
    ∧ (getRaw s id).2.index = s.index + 1
    ∧ (getRaw s id).2.write_pos = s.write_pos
    ∧ (getRaw s id).2.buffer = s.buffer := by
  simp only [getRaw, releaseUntil]
  split_ifs with h <;> simp

/-- Witness for the amended C4 at the full capacity-2 buffer, slot 1. -/
theorem C4_getRaw_amended_witness :
    (getRaw full2 1).1 = full2.buffer.getD 1 default
    ∧ (getRaw full2 1).2.read_pos = 1
    ∧ (getRaw full2 1).2.read_pos_used = true
    ∧ (getRaw full2 1).2.last_sent_pos = Int.ofNat 1
    ∧ (getRaw full2 1).2.index = full2.index + 1
    ∧ (getRaw full2 1).2.write_pos = full2.write_pos
    ∧ (getRaw full2 1).2.buffer = full2.buffer :=
  C4_getRaw_amended full2 1 (by decide)

/-- C5: `getUnreadRawInfos` returns 0 when at least one unread reading is
available, -1 when the buffer is empty with the producer still active, and
-2 when it is empty and `no_more_data` is set; `getNextRawInfo` follows the
same convention.  Both are pure functions of the unchanged state, so on an
unchanged empty end-of-stream buffer repeated calls keep returning -2. -/
theorem C5_status_codes (s : SensorState) (lt dp ad : Rat)
    (hrp : s.read_pos < s.bufferSize) :
    (isEmpty s = false →
      (getUnreadRawInfos s lt dp ad).1 = 0 ∧ (getNextRawInfo s).1 = 0)
    ∧ (isEmpty s = true → s.no_more_data = false →
      (getUnreadRawInfos s lt dp ad).1 = -1 ∧ (getNextRawInfo s).1 = -1)
    ∧ (isEmpty s = true → s.no_more_data = true →
      (getUnreadRawInfos s lt dp ad).1 = -2 ∧ (getNextRawInfo s).1 = -2) := by
  refine ⟨fun hne => ⟨?_, ?_⟩, fun he hn => ⟨?_, ?_⟩, fun he hn => ⟨?_, ?_⟩⟩
  · by_cases hfl : getFirstUnreadPos s ≤ getLastUnreadPos s
    · have hlen : getLastUnreadPos s + 1 - getFirstUnreadPos s ≠ 0 := by omega
      simp [getUnreadRawInfos, hne, hfl, hlen]
    · simp [getUnreadRawInfos, hne, hfl]
  · simp [getNextRawInfo, hne]
  · simp [getUnreadRawInfos, he, hn]
  · simp [getNextRawInfo, he, hn]
  · simp [getUnreadRawInfos, he, hn]
  · simp [getNextRawInfo, he, hn]

/-- Witness for C5 at the full capacity-2 buffer (non-empty case). -/
theorem C5_status_codes_witness :
    isEmpty full2 = false
    ∧ (getUnreadRawInfos full2 0 0 0).1 = 0 ∧ (getNextRawInfo full2).1 = 0 :=
  ⟨by decide, (C5_status_codes full2 0 0 0 (by decide)).1 (by decide)⟩

/-- C6: `release(id)` with `id < bufferSize` sets
`read_pos = (id+1) % bufferSize`, marks the read position as not in use,
clears `buffer_full` exactly when the new `read_pos` equals `write_pos`,
and changes neither `write_pos` nor the buffer contents. -/
theorem C6_release (s : SensorState) (id : Nat) (hid : id < s.bufferSize) :
    (release s id).read_pos = (id + 1) % s.bufferSize
    ∧ (release s id).read_pos_used = false
    ∧ (release s id).buffer_full
        = (if s.write_pos = (id + 1) % s.bufferSize then false
           else s.buffer_full)
    ∧ (release s id).write_pos = s.write_pos
    ∧ (release s id).buffer = s.buffer := by
  have hmod : (if id ≠ s.bufferSize - 1 then id + 1 else 0)
      = (id + 1) % s.bufferSize := by
    split_ifs with h
    · rw [Nat.mod_eq_of_lt (by omega)]
    · have h2 : id + 1 = s.bufferSize := by omega
      rw [h2, Nat.mod_self]
  simp only [release, hmod]
  split_ifs with h <;> simp [h]

/-- Witness for C6 at the full capacity-2 buffer, slot 0. -/
theorem C6_release_witness :
    (release full2 0).read_pos = (0 + 1) % full2.bufferSize
    ∧ (release full2 0).read_pos_used = false
    ∧ (release full2 0).buffer_full
        = (if full2.write_pos = (0 + 1) % full2.bufferSize then false
           else full2.buffer_full)
    ∧ (release full2 0).write_pos = full2.write_pos
    ∧ (release full2 0).buffer = full2.buffer :=
  C6_release full2 0 (by decide)

/-- C7: `observeRaw(id, out)` copies slot `id` and changes nothing: the
state is returned unchanged, any repetition returns the identical result,
and `getUnreadRawInfos` afterwards reports exactly what it reported
before. -/
theorem C7_observeRaw_pure (s : SensorState) (id : Nat)
    (hid : id < s.bufferSize) (lt dp ad : Rat) :
    (observeRaw s id).1 = s.buffer.getD id default
    ∧ (observeRaw s id).2 = s
    ∧ observeRaw ((observeRaw s id).2) id = observeRaw s id
    ∧ getUnreadRawInfos ((observeRaw s id).2) lt dp ad
        = getUnreadRawInfos s lt dp ad :=
  ⟨rfl, rfl, rfl, rfl⟩

/-- Witness for C7 at the full capacity-2 buffer, slot 0. -/
theorem C7_observeRaw_pure_witness :
    (observeRaw full2 0).1 = full2.buffer.getD 0 default
    ∧ (observeRaw full2 0).2 = full2
    ∧ observeRaw ((observeRaw full2 0).2) 0 = observeRaw full2 0
    ∧ getUnreadRawInfos ((observeRaw full2 0).2) 0 0 0
        = getUnreadRawInfos full2 0 0 0 :=
  C7_observeRaw_pure full2 0 (by decide) 0 0 0

/-- C8: every state reachable from the constructed initial state through
`incWritePos` pushes, `release`/`releaseUntil` with a valid slot index, and
releasing `getRaws` keeps `0 ≤ write_pos < bufferSize` and
`0 ≤ read_pos < bufferSize`. -/
theorem C8_positions_in_range (s : SensorState) (h : Reachable s) :
    s.write_pos < s.bufferSize ∧ s.read_pos < s.bufferSize :=
  ⟨(reachable_bounds s h).2.1, (reachable_bounds s h).2.2⟩

/-- Witness for C8 after a release on the capacity-2 initial state. -/
theorem C8_positions_in_range_witness :
    (release (mkSensor 2 (initBuf 2)) 1).write_pos
        < (release (mkSensor 2 (initBuf 2)) 1).bufferSize
    ∧ (release (mkSensor 2 (initBuf 2)) 1).read_pos
        < (release (mkSensor 2 (initBuf 2)) 1).bufferSize :=
  C8_positions_in_range _
    (Reachable.rel _ 1 (Reachable.init 2 (initBuf 2) (by decide)) (by decide))

/-- Accumulated data width of a registration list is the sum of the
registered quantities' widths. -/
theorem dataSize_regList (obsSizes : Quantity → Nat) :
    ∀ (qs : List Quantity) (st : ProprioState),
      dataSize (regList obsSizes st qs)
        = dataSize st + (qs.map QuantityDataSizes).sum := by
  intro qs
  induction qs with
  | nil => intro st; simp [regList, dataSize]
  | cons q qs ih =>
    intro st
    simp only [regList, List.foldl_cons, List.map_cons, List.sum_cons]
    have hq := ih (addQuantity obsSizes st q)
    simp only [regList] at hq
    rw [hq]
    simp only [dataSize, addQuantity]
    omega

/-- C9: `readingSize()` is `1 + dataSize()` under `ctNone`,
`1 + 2*dataSize()` under `ctVar` and `1 + dataSize()*(dataSize()+3)/2`
under `ctFull`, where `dataSize()` is the sum of the registered widths;
registering position (3) and quaternion orientation (4) under `ctFull`
gives `dataSize() = 7` and `readingSize() = 1 + 7*(7+3)/2 = 36`. -/
theorem C9_readingSize (obsSizes : Quantity → Nat) (st : ProprioState)
    (qs : List Quantity) (c : CovType) :
    (st.cov_type = .ctNone → readingSize st = 1 + dataSize st)
    ∧ (st.cov_type = .ctVar → readingSize st = 1 + dataSize st * 2)
    ∧ (st.cov_type = .ctFull →
        readingSize st = 1 + dataSize st * (dataSize st + 3) / 2)
    ∧ dataSize (regList obsSizes (mkProprio c) qs)
        = (qs.map QuantityDataSizes).sum
    ∧ dataSize (addQuantity obsSizes
        (addQuantity obsSizes (mkProprio .ctFull) .qPos) .qOriQuat) = 7
    ∧ readingSize (addQuantity obsSizes
        (addQuantity obsSizes (mkProprio .ctFull) .qPos) .qOriQuat)
        = 1 + 7 * (7 + 3) / 2
    ∧ 1 + 7 * (7 + 3) / 2 = 36 := by
  refine ⟨fun h => ?_, fun h => ?_, fun h => ?_, ?_, rfl, rfl, rfl⟩
  · unfold readingSize dataSize
    rw [h]
  · unfold readingSize dataSize
    rw [h]
  · unfold readingSize dataSize
    rw [h]
  · rw [dataSize_regList]
    simp [dataSize, mkProprio, clearQuantities]

/-- Witness for C9 at the `position, quaternion` registration under full
covariance (with the undocumented observation-size table instantiated to
zero). -/
theorem C9_readingSize_witness :
    dataSize (regList (fun _ => 0) (mkProprio .ctFull) [.qPos, .qOriQuat])
        = ([Quantity.qPos, Quantity.qOriQuat].map QuantityDataSizes).sum
    ∧ dataSize (addQuantity (fun _ => 0)
        (addQuantity (fun _ => 0) (mkProprio .ctFull) .qPos) .qOriQuat) = 7
    ∧ readingSize (addQuantity (fun _ => 0)
        (addQuantity (fun _ => 0) (mkProprio .ctFull) .qPos) .qOriQuat)
        = 1 + 7 * (7 + 3) / 2 :=
  ⟨(C9_readingSize (fun _ => 0) (mkProprio .ctFull)
      [.qPos, .qOriQuat] .ctFull).2.2.2.1,
   (C9_readingSize (fun _ => 0) (mkProprio .ctFull)
      [.qPos, .qOriQuat] .ctFull).2.2.2.2.1,
   (C9_readingSize (fun _ => 0) (mkProprio .ctFull)
      [.qPos, .qOriQuat] .ctFull).2.2.2.2.2.1⟩

/-- C10: on every non-empty buffer, `getNextRawInfo` describes the first
unread slot with its stored timestamp but always reports `arrival = 0.0`,
never the arrival time stored in the slot. -/
theorem C10_getNextRawInfo_arrival (s : SensorState)
    (hne : isEmpty s = false) :
    (getNextRawInfo s).1 = 0
    ∧ (getNextRawInfo s).2
        = some ⟨getFirstUnreadPos s, tsAt s (getFirstUnreadPos s), 0⟩ := by
  simp only [getNextRawInfo]
  rw [if_pos (by simp [hne])]
  exact ⟨rfl, rfl⟩

/-- Witness for C10 at the full capacity-2 buffer, where the first unread
slot stores the nonzero arrival time 1 yet the returned `arrival` is 0. -/
theorem C10_getNextRawInfo_arrival_witness :
    ((getNextRawInfo full2).1 = 0
      ∧ (getNextRawInfo full2).2
          = some ⟨getFirstUnreadPos full2, tsAt full2 (getFirstUnreadPos full2),
                  0⟩)
    ∧ arrAt full2 (getFirstUnreadPos full2) = 1 :=
  ⟨C10_getNextRawInfo_arrival full2 (by decide), by decide⟩
